import Mathlib

/-!
# Aethel-os console: message handling, rendering, command dispatch and audio capture

A shallow embedding of `frontend/src/App.jsx`, `ChatOverlay.jsx`, `Timeline.jsx` and
`PlanBoard.jsx`.

* JavaScript values are the inductive type `JSValue`; a thrown exception is the `error`
  branch of `Except JSError`.
* A component function is a function from its props and local state to the element tree it
  returns (`View`, `Overlay`, ...). A render pass (`Console.render`) runs the component
  functions and then React's check of the children; it throws when either throws.
* React state, refs and the HTTP requests issued so far are the fields of `Console`;
  every handler of the source is a function on `Console`.
* The page (`Page`) is the console mounted, or unmounted after a render pass threw: the
  source has no error boundary, and the effect cleanup of `App` closes the socket.
* Platform services (`JSON.parse`, `getUserMedia`, the `MediaRecorder` event source) are
  inputs: a handler receives the outcome the platform produced.
-/

namespace Aethel

/-! ## JavaScript values -/

/-- JavaScript values reachable from a `JSON.parse` result by property reads, plus
`undefined`. A number is its IEEE-754 binary64 bit pattern; an object is the list of its
own properties. -/
inductive JSValue where
  | undefined
  | null
  | bool (b : Bool)
  | number (bits : Nat)
  | string (s : String)
  | array (items : List JSValue)
  | object (props : List (String × JSValue))

/-- Exceptions raised by the modelled code and platform calls. -/
inductive JSError where
  | TypeError
  | SyntaxError
  | Error
  | NotAllowedError
  | NotFoundError
  deriving DecidableEq, Repr

/-- The property names the source reads. None of them is defined on `Object.prototype`,
`Array.prototype`, `String.prototype`, `Number.prototype` or `Boolean.prototype`, so a read
finds an own property or yields `undefined`. -/
inductive Field where
  | steps | plan | ui_action
  | step_id | action | result
  | id | description | status
  | type | title | message | options
  deriving DecidableEq, Repr

/-- The property name as written in the source. -/
def Field.name : Field → String
  | .steps => "steps"
  | .plan => "plan"
  | .ui_action => "ui_action"
  | .step_id => "step_id"
  | .action => "action"
  | .result => "result"
  | .id => "id"
  | .description => "description"
  | .status => "status"
  | .type => "type"
  | .title => "title"
  | .message => "message"
  | .options => "options"

/-- ToBoolean: `undefined`, `null`, `false`, `+0`, `-0`, `NaN` and the empty string are
falsy, everything else (every array and object included) is truthy. -/
def JSValue.truthy : JSValue → Bool
  | .undefined => false
  | .null => false
  | .bool b => b
  | .number bits =>
      let mag := (bits % 2 ^ 64) % 2 ^ 63
      mag != 0 && decide (mag ≤ 0x7FF0000000000000)
  | .string s => s != ""
  | .array _ => true
  | .object _ => true

/-- The member read `v.f`: a TypeError on `undefined` and `null`, the own property of an
object (or `undefined`), and `undefined` on every other value. -/
def JSValue.get (v : JSValue) (f : Field) : Except JSError JSValue :=
  match v with
  | .undefined => .error .TypeError
  | .null => .error .TypeError
  | .object props => .ok ((props.lookup f.name).getD .undefined)
  | _ => .ok .undefined

/-- The call `v.map(callback)`: `Array.prototype.map` on an array (the callback may throw),
a TypeError on anything else (`undefined`/`null` have no properties, no other parsed value
has a callable `map`). -/
def JSValue.map {α : Type} (v : JSValue) (callback : JSValue → Except JSError α) :
    Except JSError (List α) :=
  match v with
  | .array items => items.mapM callback
  | _ => .error .TypeError

/-- Strict equality with a string literal: `v === lit`. -/
def JSValue.strictEqString (v : JSValue) (lit : String) : Bool :=
  match v with
  | .string s => s == lit
  | _ => false

/-- The expression `a || b`. -/
def JSValue.or (a b : JSValue) : JSValue :=
  if a.truthy then a else b

mutual
/-- Whether React accepts the value as a child of an element: strings, numbers, booleans,
`null` and `undefined` are accepted, an array is accepted when each of its items is, and a
plain object is rejected with the error `Objects are not valid as a React child`. -/
def JSValue.validChild : JSValue → Bool
  | .object _ => false
  | .array items => validChildren items
  | _ => true
/-- Whether React accepts every value of the list as a child. -/
def validChildren : List JSValue → Bool
  | [] => true
  | v :: rest => v.validChild && validChildren rest
end

/-! ## Timeline.jsx -/

/-- One `ListItem` of the timeline. -/
structure TimelineItem where
  key : JSValue
  icon : String
  primary : JSValue
  secondary : JSValue

/-- The function `getIcon`. -/
def getIcon (action : JSValue) : String :=
  if action.strictEqString "fs_move" then "📂"
  else if action.strictEqString "kg_search" then "🔍"
  else if action.strictEqString "ask_user" then "❓"
  else "⚙️"

/-- The component `Timeline`: `steps.map(step => <ListItem key=step.step_id ...>)`. -/
def Timeline (steps : JSValue) : Except JSError (List TimelineItem) :=
  steps.map fun step => do
    let step_id ← step.get .step_id
    let action ← step.get .action
    let result ← step.get .result
    pure { key := step_id, icon := getIcon action,
           primary := action.or (.string "Thinking..."), secondary := result }

/-! ## PlanBoard.jsx -/

/-- One `ListItem` of the plan board. -/
structure PlanRow where
  key : JSValue
  checked : Bool
  primary : JSValue
  textDecoration : String

/-- The component `PlanBoard`: `plan.map(item => <ListItem key=item.id ...>)`. -/
def PlanBoard (plan : JSValue) : Except JSError (List PlanRow) :=
  plan.map fun item => do
    let id ← item.get .id
    let status ← item.get .status
    let description ← item.get .description
    pure { key := id, checked := status.strictEqString "done", primary := description,
           textDecoration := if status.strictEqString "done" then "line-through" else "none" }

/-! ## ChatOverlay.jsx: the element tree -/

/-- One response `Button` of the modal: its key, its label and the argument its click
handler `() => onSend(opt)` passes to `onSend`. -/
structure OptionButton where
  key : JSValue
  label : JSValue
  onClick : JSValue

/-- The child `uiAction.options && uiAction.options.map(...)`: the falsy value of
`options` itself, or the mapped buttons. -/
inductive OptionsSlot where
  | value (v : JSValue)
  | buttons (bs : List OptionButton)

/-- The response buttons of the slot. -/
def OptionsSlot.responseButtons : OptionsSlot → List OptionButton
  | .value _ => []
  | .buttons bs => bs

/-- The handler the microphone Fab is bound to. -/
inductive MicHandler where
  | startRecording
  | stopRecording
  deriving DecidableEq, Repr

/-- The element tree returned by `ChatOverlay`. -/
structure Overlay where
  modalOpen : Bool
  title : JSValue
  message : JSValue
  options : OptionsSlot
  inputValue : String
  fabColor : String
  fabOnClick : MicHandler

/-- The child expression `uiAction.options && uiAction.options.map(opt => <Button ...>)`,
given the value of `uiAction.options`. -/
def optionButtons (options : JSValue) : Except JSError OptionsSlot :=
  if options.truthy then
    OptionsSlot.buttons <$>
      options.map fun opt => pure { key := opt, label := opt, onClick := opt }
  else pure (OptionsSlot.value options)

/-- The component `ChatOverlay`, as a function of its `uiAction` prop and its local state
`input` and `isRecording`. -/
def ChatOverlay (uiAction : JSValue) (input : String) (isRecording : Bool) :
    Except JSError Overlay := do
  let type ← uiAction.get .type
  let title ← uiAction.get .title
  let message ← uiAction.get .message
  let options ← uiAction.get .options
  let slot ← optionButtons options
  pure { modalOpen := type.truthy, title := title, message := message, options := slot,
         inputValue := input,
         fabColor := if isRecording then "secondary" else "primary",
         fabOnClick := if isRecording then .stopRecording else .startRecording }

/-! ## App.jsx: the element tree -/

/-- The element tree returned by `App` together with its child components. -/
inductive View where
  | loading
  | console (timeline : List TimelineItem) (plan : List PlanRow) (overlay : Overlay)

/-- The component `App` with its children rendered, as a function of the `scratchpad`
state and the local state of `ChatOverlay`. -/
def App (scratchpad : JSValue) (input : String) (isRecording : Bool) : Except JSError View :=
  if !scratchpad.truthy then pure .loading
  else do
    let steps ← scratchpad.get .steps
    let plan ← scratchpad.get .plan
    let ui_action ← scratchpad.get .ui_action
    let timeline ← Timeline steps
    let planRows ← PlanBoard plan
    let overlay ← ChatOverlay ui_action input isRecording
    pure (.console timeline planRows overlay)

/-! ## Console state -/

/-- A `Blob`: its bytes and its mime type. -/
structure Blob where
  bytes : List Nat
  type : String
  deriving DecidableEq, Repr

/-- The constructor `new Blob(parts, { type })`: the parts concatenated in order. -/
def Blob.ofParts (parts : List Blob) (type : String) : Blob :=
  { bytes := (parts.map fun part => part.bytes).flatten, type := type }

/-- The attribute `MediaRecorder.state` (the source never pauses a recorder). -/
inductive RecordingState where
  | inactive
  | recording
  deriving DecidableEq, Repr

/-- A `MediaRecorder` object: the stream it was constructed on and its `state`. Its
`ondataavailable` and `onstop` handlers are the functions `ondataavailable` and `onstop`
below for every recorder the source creates. -/
structure MediaRecorder where
  stream : Nat
  state : RecordingState
  deriving DecidableEq, Repr

/-- An HTTP request issued through `axios.post`. -/
inductive Request where
  | postInput (url : String) (response : JSValue)
  | postAudio (url : String) (field : String) (file : Blob) (contentType : String)

/-- The state of the console: the `scratchpad` state of `App`, the `input` and
`isRecording` state and the `mediaRecorder` and `audioChunks` refs of `ChatOverlay`, the
recorder objects created so far (a ref holds the index of one), and the requests issued so
far, oldest first. -/
structure Console where
  scratchpad : JSValue
  input : String
  isRecording : Bool
  mediaRecorder : Option Nat
  recorders : List MediaRecorder
  audioChunks : List Blob
  requests : List Request

/-- The state at mount: `useState(null)`, `useState('')`, `useState(false)`,
`useRef(null)`, `useRef([])`. -/
def Console.init : Console :=
  { scratchpad := .null, input := "", isRecording := false, mediaRecorder := none,
    recorders := [], audioChunks := [], requests := [] }

/-- Whether React accepts the children of a timeline item: the `primary` text and the
child of the `secondary` Typography. -/
def TimelineItem.childrenValid (item : TimelineItem) : Bool :=
  item.primary.validChild && item.secondary.validChild

/-- Whether React accepts the children of a plan row: the `primary` text. -/
def PlanRow.childrenValid (row : PlanRow) : Bool :=
  row.primary.validChild

/-- Whether React accepts the children of the overlay. The `Modal` has no `keepMounted`, so
it mounts its content (title, message, response buttons) only while `open` is true; a falsy
`options` value is a primitive and is always accepted. -/
def Overlay.childrenValid (overlay : Overlay) : Bool :=
  !overlay.modalOpen ||
    (overlay.title.validChild && overlay.message.validChild &&
      overlay.options.responseButtons.all fun b => b.label.validChild)

/-- Whether React accepts every child of the element tree. -/
def View.childrenValid : View → Bool
  | .loading => true
  | .console timeline plan overlay =>
      (timeline.all TimelineItem.childrenValid) && (plan.all PlanRow.childrenValid) &&
        overlay.childrenValid

/-- The check React applies when it mounts the tree the component functions returned: it
throws an Error when a child is a plain object. -/
def mountView (view : View) : Except JSError View :=
  if view.childrenValid then .ok view else .error .Error

/-- One render pass of the console in a state: the component functions return the element
tree (or throw), then React mounts it (or throws). The result is the tree that is on screen
when the pass succeeds. Which DOM nodes React reuses from the pass before is decided by the
keys; the statements below that speak of what is on screen take snapshots whose keys are
unique. -/
def Console.render (c : Console) : Except JSError View := do
  let view ← App c.scratchpad c.input c.isRecording
  mountView view

/-- The `open` flag of the prompt modal on screen: `some true` or `some false` when the
render pass succeeds (`some false` on the loading view, which has no modal), `none` when
the render pass throws and nothing is on screen. -/
def Console.modalOpen (c : Console) : Option Bool :=
  match c.render with
  | .ok (.console _ _ overlay) => some overlay.modalOpen
  | .ok .loading => some false
  | .error _ => none

/-! ## App.jsx: handlers -/

/-- The handler `ws.onmessage`, given the outcome of `JSON.parse(event.data)`: when the
parse throws, the handler is left before `setScratchpad`; otherwise the parsed value becomes
the `scratchpad` state. -/
def onmessage (parsed : Except JSError JSValue) (c : Console) : Console :=
  match parsed with
  | .error _ => c
  | .ok data => { c with scratchpad := data }

/-- The function `handleUserResponse`: one POST of `{ response: text }` to the input
endpoint. The function is async, so nothing it awaits reaches its caller. -/
def handleUserResponse (text : JSValue) (c : Console) : Console :=
  { c with requests := c.requests ++ [.postInput "http://localhost:8000/input" text] }

/-- The function `handleAudioUpload`: one multipart POST with the blob in field `file`. -/
def handleAudioUpload (blob : Blob) (c : Console) : Console :=
  { c with requests :=
      c.requests ++ [.postAudio "http://localhost:8000/audio" "file" blob "multipart/form-data"] }

/-- The settling of the promise returned by `axios.post` (`true`: fulfilled, `false`:
rejected). The awaiting async function ends either way and no handler is attached to its
result, so the state is left as it is. -/
def postSettled (_fulfilled : Bool) (c : Console) : Console := c

/-! ## ChatOverlay.jsx: handlers -/

/-- The handler `onChange` of the text field: `setInput(e.target.value)`. -/
def onChange (value : String) (c : Console) : Console :=
  { c with input := value }

/-- The function `handleSend`: `onSend(input); setInput('')`. -/
def handleSend (c : Console) : Console :=
  { handleUserResponse (.string c.input) c with input := "" }

/-- The click handler of a response button: `() => onSend(opt)`. -/
def OptionButton.click (b : OptionButton) (c : Console) : Console :=
  handleUserResponse b.onClick c

/-- The handler `ondataavailable`: `audioChunks.current.push(e.data)`. -/
def ondataavailable (data : Blob) (c : Console) : Console :=
  { c with audioChunks := c.audioChunks ++ [data] }

/-- The handler `onstop`: build the blob from the buffered chunks, hand it to `onAudio`,
reset the buffer. -/
def onstop (c : Console) : Console :=
  let blob := Blob.ofParts c.audioChunks "audio/webm"
  { handleAudioUpload blob c with audioChunks := [] }

/-- The function `startRecording`, given the outcome of the awaited `getUserMedia` call
(a stream, or the rejection reason). On rejection the async function ends at the `await`.
On a stream a new recorder is constructed on it, stored in the ref, started, and the flag
is set. -/
def startRecording (media : Except JSError Nat) (c : Console) : Console :=
  match media with
  | .error _ => c
  | .ok stream =>
      { c with
        mediaRecorder := some c.recorders.length
        recorders := c.recorders ++ [{ stream := stream, state := .recording }]
        isRecording := true }

/-- The method `MediaRecorder.stop()` on the recorder at an index, as the MediaStream
Recording specification defines it: on an inactive recorder the steps are aborted, otherwise
the recorder becomes inactive (its last `dataavailable` event and its `stop` event are
delivered later). -/
def MediaRecorder.stop (recorders : List MediaRecorder) (i : Nat) :
    Except JSError (List MediaRecorder) :=
  match recorders.get? i with
  | none => .error .TypeError
  | some r =>
      match r.state with
      | .inactive => .ok recorders
      | .recording => .ok (recorders.set i { r with state := .inactive })

/-- The function `stopRecording`: `mediaRecorder.current.stop(); setIsRecording(false)`.
A null ref gives a TypeError; an exception leaves the function before the flag is reset. -/
def stopRecording (c : Console) : Except JSError Console :=
  match c.mediaRecorder with
  | none => .error .TypeError
  | some i => do
      let recorders ← MediaRecorder.stop c.recorders i
      pure { c with recorders := recorders, isRecording := false }

/-- The click handler of the microphone Fab: `isRecording ? stopRecording : startRecording`.
The outcome of `getUserMedia` is used only when `startRecording` runs; an exception thrown
by the handler leaves the state as it was. -/
def micClick (media : Except JSError Nat) (c : Console) : Console :=
  if c.isRecording then
    match stopRecording c with
    | .ok c1 => c1
    | .error _ => c
  else startRecording media c

/-! ## The mounted page -/

/-- The page: the console mounted with its state, or unmounted. The source has no error
boundary, so React unmounts the tree when a render pass throws; the cleanup of the effect in
`App` then runs `ws.close()`, and no message event reaches `ws.onmessage` afterwards. -/
inductive Page where
  | mounted (c : Console)
  | unmounted

/-- The page at start: `App` mounted with its initial state, showing the loading view. -/
def Page.start : Page := .mounted Console.init

/-- The local state of `ChatOverlay` when it is mounted anew. -/
def Console.resetOverlay (c : Console) : Console :=
  { c with input := "", isRecording := false, mediaRecorder := none, audioChunks := [] }

/-- One message event on the socket. On an unmounted page the socket is closed and nothing
runs. Otherwise `ws.onmessage` runs; when it throws (the parse failed) no state was set and
no render pass follows; when it sets the state a render pass follows: if it throws the page
is unmounted, if it shows the loading view `ChatOverlay` is unmounted and its local state is
lost (so from `Page.start` the local state is the initial one whenever `ChatOverlay` is
mounted anew), otherwise the console view is on screen. -/
def deliver (parsed : Except JSError JSValue) (page : Page) : Page :=
  match page with
  | .unmounted => .unmounted
  | .mounted c =>
      match parsed with
      | .error _ => .mounted c
      | .ok _ =>
          match (onmessage parsed c).render with
          | .error _ => .unmounted
          | .ok .loading => .mounted (onmessage parsed c).resetOverlay
          | .ok (.console _ _ _) => .mounted (onmessage parsed c)

/-- A sequence of inbound payloads that all parse, delivered in order. -/
def deliverAll (snapshots : List JSValue) (page : Page) : Page :=
  snapshots.foldl (fun acc snapshot => deliver (.ok snapshot) acc) page

/-- The `open` flag of the prompt modal on the page; `none` when the page is unmounted. -/
def Page.modalOpen : Page → Option Bool
  | .mounted c => c.modalOpen
  | .unmounted => none

/-! ## Runs and shapes used in the statements -/

/-- The own property of an object, `undefined` when there is none or the value is not an
object. -/
def JSValue.field (v : JSValue) (f : Field) : JSValue :=
  match v with
  | .object props => (props.lookup f.name).getD .undefined
  | _ => .undefined

/-- Whether an object has the own property. -/
def JSValue.hasField (v : JSValue) (f : Field) : Bool :=
  match v with
  | .object props => (props.lookup f.name).isSome
  | _ => false

/-- A record: a JSON object. -/
def JSValue.isRecord : JSValue → Bool
  | .object _ => true
  | _ => false

/-- A list of records. -/
def JSValue.isRecordList : JSValue → Bool
  | .array items => items.all JSValue.isRecord
  | _ => false

/-- A string. -/
def JSValue.isString : JSValue → Bool
  | .string _ => true
  | _ => false

/-- An optional string: absent, `null` or a string. -/
def JSValue.isOptionalString : JSValue → Bool
  | .undefined => true
  | .null => true
  | .string _ => true
  | _ => false

/-- An optional list of strings: absent, `null` or an array of strings. -/
def JSValue.isOptionalStringList : JSValue → Bool
  | .undefined => true
  | .null => true
  | .array items => items.all JSValue.isString
  | _ => false

/-- The shape of a UI action request on the wire: a record whose `type` is an optional
string and whose `options` is an optional list of strings. -/
def IsUIActionRequest (u : JSValue) : Bool :=
  u.isRecord && (u.field .type).isOptionalString && (u.field .options).isOptionalStringList

/-- The shape of a snapshot on the wire: a record whose `steps` and `plan` are lists of
records and whose `ui_action` is a UI action request. -/
def IsSnapshot (s : JSValue) : Bool :=
  s.isRecord && (s.field .steps).isRecordList && (s.field .plan).isRecordList
    && IsUIActionRequest (s.field .ui_action)

/-- A displayed text: absent, `null`, a string or a number. -/
def JSValue.isText : JSValue → Bool
  | .undefined => true
  | .null => true
  | .string _ => true
  | .number _ => true
  | _ => false

/-- The identity of a number used as a key, `none` for NaN: the bit pattern, with the two
zeros identified. -/
def numberKey (bits : Nat) : Option Nat :=
  let mag := (bits % 2 ^ 64) % 2 ^ 63
  if mag = 0 then some 0
  else if mag ≤ 0x7FF0000000000000 then some (bits % 2 ^ 64)
  else none

/-- Keys that React keeps apart: all of them strings, pairwise different, or all of them
numbers other than NaN, pairwise different. -/
def distinctKeys (keys : List JSValue) : Bool :=
  match keys.mapM (fun k => match k with
      | .string t => some t
      | _ => none) with
  | some texts => decide texts.Nodup
  | none =>
      match keys.mapM (fun k => match k with
          | .number bits => numberKey bits
          | _ => none) with
      | some numbers => decide numbers.Nodup
      | none => false

/-- The keys of the records of a list under a field; no keys when the value is not a
list. -/
def JSValue.keysUnder (v : JSValue) (f : Field) : List JSValue :=
  match v with
  | .array items => items.map fun item => item.field f
  | _ => []

/-- An execution step that displays: a record whose `action` and `result` are texts. -/
def IsStep (step : JSValue) : Bool :=
  step.isRecord && (step.field .action).isText && (step.field .result).isText

/-- A plan item that displays: a record whose `description` is a text. -/
def IsPlanItem (item : JSValue) : Bool :=
  item.isRecord && (item.field .description).isText

/-- A list whose items all satisfy a test. -/
def JSValue.isListOf (test : JSValue → Bool) : JSValue → Bool
  | .array items => items.all test
  | _ => false

/-- A snapshot as the data model describes it and the console displays it: the shape
`IsSnapshot`; every step and plan item displays; `step_id`, `id` and the options are
unique; `title` and `message` are texts. -/
def IsDisplayableSnapshot (s : JSValue) : Bool :=
  IsSnapshot s
    && (s.field .steps).isListOf IsStep && (s.field .plan).isListOf IsPlanItem
    && distinctKeys ((s.field .steps).keysUnder .step_id)
    && distinctKeys ((s.field .plan).keysUnder .id)
    && ((s.field .ui_action).field .title).isText
    && ((s.field .ui_action).field .message).isText
    && (match (s.field .ui_action).field .options with
        | .array options => distinctKeys options
        | _ => true)

/-- The shape of a snapshot whose UI action may also be missing: as `IsSnapshot`, but
`ui_action` may be absent or `null`. -/
def IsSnapshotOptionalAction (s : JSValue) : Bool :=
  s.isRecord && (s.field .steps).isRecordList && (s.field .plan).isRecordList
    && (match s.field .ui_action with
        | .undefined => true
        | .null => true
        | u => IsUIActionRequest u)

/-- A snapshot carries an active request: the `type` of its `ui_action` is a non-empty
string. -/
def HasActiveRequest (s : JSValue) : Bool :=
  match (s.field .ui_action).field .type with
  | .string t => t != ""
  | _ => false

/-- A malformed inbound payload: `JSON.parse` throws on it, or the parsed value lacks one
of `steps`, `plan`, `ui_action`. -/
def Malformed (parsed : Except JSError JSValue) : Bool :=
  match parsed with
  | .error _ => true
  | .ok v => !(v.hasField .steps && v.hasField .plan && v.hasField .ui_action)

/-- The snapshot with empty log, empty plan and empty UI action. -/
def emptySnapshot : JSValue :=
  .object [("steps", .array []), ("plan", .array []), ("ui_action", .object [])]

/-- A snapshot with empty log and plan and no `ui_action` at all. -/
def bareSnapshot : JSValue :=
  .object [("steps", .array []), ("plan", .array [])]

/-- A snapshot with one step, one plan item and a confirmation request with two options. -/
def confirmSnapshot : JSValue :=
  .object
    [("steps", .array [.object [("step_id", .string "s1"), ("action", .string "fs_move"),
        ("result", .string "moved")]]),
     ("plan", .array [.object [("id", .string "p1"), ("description", .string "Scan dir"),
        ("status", .string "done")]]),
     ("ui_action", .object [("type", .string "confirm"), ("title", .string "Proceed?"),
        ("message", .string "Delete file X?"),
        ("options", .array [.string "Yes", .string "No"])])]

/-! ## Closed forms of the element trees, and runs of handlers -/

/-- The timeline item built from a record. -/
def timelineItemOf (step : JSValue) : TimelineItem :=
  { key := step.field .step_id, icon := getIcon (step.field .action),
    primary := (step.field .action).or (.string "Thinking..."),
    secondary := step.field .result }

/-- The plan row built from a record. -/
def planRowOf (item : JSValue) : PlanRow :=
  { key := item.field .id, checked := (item.field .status).strictEqString "done",
    primary := item.field .description,
    textDecoration :=
      if (item.field .status).strictEqString "done" then "line-through" else "none" }

/-- The response button built from an option. -/
def optionButtonOf (opt : JSValue) : OptionButton :=
  { key := opt, label := opt, onClick := opt }

/-- The options slot `ChatOverlay` builds from the value of `options` when that value is
falsy or an array. -/
def optionsSlotOf (options : JSValue) : OptionsSlot :=
  match options with
  | .array items => .buttons (items.map optionButtonOf)
  | v => .value v

/-- The overlay `ChatOverlay` returns on a record whose `options` is falsy or an array. -/
def overlayOf (u : JSValue) (input : String) (isRecording : Bool) : Overlay :=
  { modalOpen := (u.field .type).truthy, title := u.field .title, message := u.field .message,
    options := optionsSlotOf (u.field .options), inputValue := input,
    fabColor := if isRecording then "secondary" else "primary",
    fabOnClick := if isRecording then .stopRecording else .startRecording }

/-- The overlay with the local state of `ChatOverlay` replaced. -/
def Overlay.withLocal (input : String) (isRecording : Bool) (overlay : Overlay) : Overlay :=
  { overlay with
    inputValue := input
    fabColor := if isRecording then "secondary" else "primary"
    fabOnClick := if isRecording then .stopRecording else .startRecording }

/-- The view with the local state of `ChatOverlay` replaced. -/
def View.withLocal (input : String) (isRecording : Bool) : View → View
  | .loading => .loading
  | .console timeline plan overlay => .console timeline plan (overlay.withLocal input isRecording)

/-- A submission of a response: typing a text and pressing Send, or clicking the response
button of an option. -/
inductive Submission where
  | send (text : String)
  | option (opt : JSValue)

/-- The handlers a submission runs. -/
def submit (s : Submission) (c : Console) : Console :=
  match s with
  | .send text => handleSend (onChange text c)
  | .option opt => (optionButtonOf opt).click c

/-- A sequence of submissions, oldest first. -/
def submitAll (subs : List Submission) (c : Console) : Console :=
  subs.foldl (fun acc s => submit s acc) c

/-- The data chunks of a list delivered to `ondataavailable` in order. -/
def deliverChunks (chunks : List Blob) (c : Console) : Console :=
  chunks.foldl (fun acc chunk => ondataavailable chunk acc) c

/-- One recording session: `startRecording` with a granted stream, the chunks delivered
before the stop call, `stopRecording`, the chunks the recorder delivers between the stop
call and its `stop` event, then `onstop`. -/
def recordingSession (stream : Nat) (before after : List Blob) (c : Console) :
    Except JSError Console := do
  let c1 := deliverChunks before (startRecording (.ok stream) c)
  let c2 ← stopRecording c1
  pure (onstop (deliverChunks after c2))

/-! ## Auxiliary lemmas -/

theorem mapM_ok {α β : Type} (f : α → Except JSError β) (g : α → β) :
    ∀ xs : List α, (∀ x ∈ xs, f x = .ok (g x)) → xs.mapM f = .ok (xs.map g)
  | [], _ => rfl
  | x :: xs, h => by
      have h1 := h x (List.mem_cons_self _ _)
      have h2 := mapM_ok f g xs (fun y hy => h y (List.mem_cons_of_mem _ hy))
      rw [List.mapM_cons, h1, h2]
      rfl

theorem get_of_isRecord (v : JSValue) (f : Field) (h : v.isRecord = true) :
    v.get f = .ok (v.field f) := by
  cases v <;> simp [JSValue.isRecord] at h
  rfl

theorem get_of_truthy (v : JSValue) (f : Field) (h : v.truthy = true) :
    v.get f = .ok (v.field f) := by
  cases v <;> first | rfl | exact absurd h (by decide)

theorem Timeline_of_isRecordList (steps : JSValue) (h : steps.isRecordList = true) :
    ∃ items, steps = .array items ∧ Timeline steps = .ok (items.map timelineItemOf) := by
  cases steps <;> simp [JSValue.isRecordList] at h
  rename_i items
  refine ⟨items, rfl, ?_⟩
  unfold Timeline JSValue.map
  apply mapM_ok
  intro x hx
  simp only [get_of_isRecord x _ (h x hx)]
  rfl

theorem PlanBoard_of_isRecordList (plan : JSValue) (h : plan.isRecordList = true) :
    ∃ items, plan = .array items ∧ PlanBoard plan = .ok (items.map planRowOf) := by
  cases plan <;> simp [JSValue.isRecordList] at h
  rename_i items
  refine ⟨items, rfl, ?_⟩
  unfold PlanBoard JSValue.map
  apply mapM_ok
  intro x hx
  simp only [get_of_isRecord x _ (h x hx)]
  rfl

theorem optionButtons_of_falsy (o : JSValue) (h : o.truthy = false) :
    optionButtons o = .ok (.value o) := by
  unfold optionButtons
  rw [if_neg (by simp [h])]
  rfl

theorem optionButtons_of_array (items : List JSValue) :
    optionButtons (.array items) = .ok (.buttons (items.map optionButtonOf)) := by
  have h1 : (JSValue.array items).map
      (fun opt => (pure { key := opt, label := opt, onClick := opt } : Except JSError OptionButton))
      = .ok (items.map optionButtonOf) :=
    mapM_ok _ _ items (fun _ _ => rfl)
  unfold optionButtons
  rw [if_pos (show (JSValue.array items).truthy = true from rfl), h1]
  rfl

theorem optionButtons_eq (o : JSValue)
    (ho : o.truthy = false ∨ ∃ items, o = .array items) :
    optionButtons o = .ok (optionsSlotOf o) := by
  rcases ho with ho | ⟨items, rfl⟩
  · rw [optionButtons_of_falsy o ho]
    revert ho
    cases o <;> intro ho <;> first | rfl | exact absurd ho (by simp [JSValue.truthy])
  · exact optionButtons_of_array items

theorem ChatOverlay_of_record (u : JSValue) (input : String) (isRecording : Bool)
    (hu : u.isRecord = true)
    (ho : (u.field .options).truthy = false ∨ ∃ items, u.field .options = .array items) :
    ChatOverlay u input isRecording = .ok (overlayOf u input isRecording) := by
  unfold ChatOverlay
  simp only [get_of_isRecord u _ hu]
  change (optionButtons (u.field .options)).bind _ = _
  rw [optionButtons_eq _ ho]
  rfl

theorem options_of_isOptionalStringList (o : JSValue) (h : o.isOptionalStringList = true) :
    o.truthy = false ∨ ∃ items, o = .array items := by
  cases o <;> first
    | exact Or.inl rfl
    | exact Or.inr ⟨_, rfl⟩
    | exact absurd h (by simp [JSValue.isOptionalStringList])

theorem App_of_truthy (s : JSValue) (input : String) (isRecording : Bool)
    (hs : s.truthy = true) :
    App s input isRecording =
      (Timeline (s.field .steps)).bind fun timeline =>
        (PlanBoard (s.field .plan)).bind fun planRows =>
          (ChatOverlay (s.field .ui_action) input isRecording).bind fun overlay =>
            .ok (.console timeline planRows overlay) := by
  unfold App
  simp only [hs, Bool.not_true, Bool.false_eq_true, if_false, get_of_truthy s _ hs]
  rfl

theorem App_of_parts (s : JSValue) (input : String) (isRecording : Bool)
    (hs : s.truthy = true) (hsteps : (s.field .steps).isRecordList = true)
    (hplan : (s.field .plan).isRecordList = true) (hu : (s.field .ui_action).isRecord = true)
    (ho : ((s.field .ui_action).field .options).truthy = false
      ∨ ∃ items, (s.field .ui_action).field .options = .array items) :
    ∃ steps plan, s.field .steps = .array steps ∧ s.field .plan = .array plan ∧
      App s input isRecording =
        .ok (.console (steps.map timelineItemOf) (plan.map planRowOf)
          (overlayOf (s.field .ui_action) input isRecording)) := by
  obtain ⟨steps, hst, hT⟩ := Timeline_of_isRecordList _ hsteps
  obtain ⟨plan, hpl, hP⟩ := PlanBoard_of_isRecordList _ hplan
  refine ⟨steps, plan, hst, hpl, ?_⟩
  rw [App_of_truthy s input isRecording hs, hT, hP,
    ChatOverlay_of_record _ input isRecording hu ho]
  rfl

theorem isRecord_truthy (s : JSValue) (h : s.isRecord = true) : s.truthy = true := by
  cases s <;> first | rfl | exact absurd h (by simp [JSValue.isRecord])

theorem App_of_IsSnapshot (s : JSValue) (input : String) (isRecording : Bool)
    (h : IsSnapshot s = true) :
    ∃ steps plan, s.field .steps = .array steps ∧ s.field .plan = .array plan ∧
      App s input isRecording =
        .ok (.console (steps.map timelineItemOf) (plan.map planRowOf)
          (overlayOf (s.field .ui_action) input isRecording)) := by
  simp only [IsSnapshot, IsUIActionRequest, Bool.and_eq_true] at h
  obtain ⟨⟨⟨hrec, hsteps⟩, hplan⟩, ⟨hu, _⟩, hopts⟩ := h
  exact App_of_parts s input isRecording (isRecord_truthy s hrec) hsteps hplan hu
    (options_of_isOptionalStringList _ hopts)

theorem truthy_type_iff_active (s : JSValue)
    (h : ((s.field .ui_action).field .type).isOptionalString = true) :
    ((s.field .ui_action).field .type).truthy = HasActiveRequest s := by
  unfold HasActiveRequest
  revert h
  cases (s.field .ui_action).field .type <;> intro h <;> first
    | rfl
    | exact absurd h (by simp [JSValue.isOptionalString])

theorem ChatOverlay_ok_elim (u : JSValue) (input : String) (isRecording : Bool)
    (overlay : Overlay) (h : ChatOverlay u input isRecording = .ok overlay) :
    ∃ slot, optionButtons (u.field .options) = .ok slot ∧
      overlay = { overlayOf u input isRecording with options := slot } := by
  have key : ∀ v : JSValue, (∀ f, v.get f = .ok (v.field f)) →
      ChatOverlay v input isRecording = .ok overlay →
      ∃ slot, optionButtons (v.field .options) = .ok slot ∧
        overlay = { overlayOf v input isRecording with options := slot } := by
    intro v hv hc
    unfold ChatOverlay at hc
    simp only [hv] at hc
    change (optionButtons (v.field .options)).bind _ = _ at hc
    cases hob : optionButtons (v.field .options) with
    | error e => rw [hob] at hc; cases hc
    | ok slot =>
        rw [hob] at hc
        refine ⟨slot, rfl, ?_⟩
        cases hc
        rfl
  cases u with
  | undefined => cases h
  | null => cases h
  | bool b => exact key _ (fun _ => rfl) h
  | number n => exact key _ (fun _ => rfl) h
  | string t => exact key _ (fun _ => rfl) h
  | array items => exact key _ (fun _ => rfl) h
  | object props => exact key _ (fun _ => rfl) h

theorem MediaRecorder_stop_length (recorders recorders1 : List MediaRecorder) (i : Nat)
    (h : MediaRecorder.stop recorders i = .ok recorders1) :
    recorders1.length = recorders.length := by
  unfold MediaRecorder.stop at h
  cases hg : recorders.get? i with
  | none => rw [hg] at h; cases h
  | some r =>
      rw [hg] at h
      cases hr : r.state with
      | inactive => simp only [hr] at h; cases h; rfl
      | recording =>
          simp only [hr] at h
          cases h
          exact List.length_set _ _ _

theorem submit_scratchpad (s : Submission) (c : Console) :
    (submit s c).scratchpad = c.scratchpad := by
  cases s <;> rfl

theorem submitAll_scratchpad (subs : List Submission) (c : Console) :
    (submitAll subs c).scratchpad = c.scratchpad := by
  induction subs generalizing c with
  | nil => rfl
  | cons s rest ih =>
      show (submitAll rest (submit s c)).scratchpad = c.scratchpad
      rw [ih, submit_scratchpad]

theorem deliverChunks_audioChunks (chunks : List Blob) (c : Console) :
    deliverChunks chunks c = { c with audioChunks := c.audioChunks ++ chunks } := by
  induction chunks generalizing c with
  | nil => simp [deliverChunks]
  | cons x rest ih =>
      show deliverChunks rest (ondataavailable x c) = _
      rw [ih]
      simp [ondataavailable]

theorem render_eq (c : Console) :
    c.render = (App c.scratchpad c.input c.isRecording).bind mountView := rfl

theorem ChatOverlay_withLocal (u : JSValue) (i j : String) (r q : Bool) :
    ChatOverlay u i r = (ChatOverlay u j q).map (Overlay.withLocal i r) := by
  cases u <;> try rfl
  rename_i props
  unfold ChatOverlay
  simp only [JSValue.get]
  change (optionButtons _).bind _ = Except.map _ ((optionButtons _).bind _)
  cases optionButtons ((props.lookup Field.options.name).getD .undefined) <;> rfl

theorem App_withLocal (s : JSValue) (i j : String) (r q : Bool) :
    App s i r = (App s j q).map (View.withLocal i r) := by
  cases hs : s.truthy
  · have hl : ∀ i r, App s i r = .ok .loading := by
      intro i r
      unfold App
      simp [hs]
      rfl
    rw [hl, hl]
    rfl
  · rw [App_of_truthy _ _ _ hs, App_of_truthy _ _ _ hs]
    cases Timeline (s.field .steps)
    · rfl
    · cases PlanBoard (s.field .plan)
      · rfl
      · rw [ChatOverlay_withLocal (s.field .ui_action) i j r q]
        cases ChatOverlay (s.field .ui_action) j q <;> rfl

theorem childrenValid_withLocal (v : View) (i : String) (r : Bool) :
    (v.withLocal i r).childrenValid = v.childrenValid := by
  cases v <;> rfl

theorem modalOpen_eq_of_scratchpad (c d : Console) (h : c.scratchpad = d.scratchpad) :
    c.modalOpen = d.modalOpen := by
  unfold Console.modalOpen
  rw [render_eq, render_eq, h,
    App_withLocal d.scratchpad c.input d.input c.isRecording d.isRecording]
  cases App d.scratchpad d.input d.isRecording with
  | error e => rfl
  | ok v =>
      change (match mountView (v.withLocal c.input c.isRecording) with
        | .ok (.console _ _ overlay) => some overlay.modalOpen
        | .ok .loading => some false
        | .error _ => none) = (match mountView v with
        | .ok (.console _ _ overlay) => some overlay.modalOpen
        | .ok .loading => some false
        | .error _ => none)
      unfold mountView
      rw [childrenValid_withLocal]
      cases v.childrenValid
      · rfl
      · cases v <;> rfl

theorem validChild_of_isText (v : JSValue) (h : v.isText = true) : v.validChild = true := by
  cases v <;> first
    | rfl
    | exact absurd h (by simp [JSValue.isText])

theorem validChild_or_of_isText (v : JSValue) (t : String) (h : v.isText = true) :
    (v.or (.string t)).validChild = true := by
  unfold JSValue.or
  split
  · exact validChild_of_isText v h
  · rfl

theorem timeline_childrenValid (steps : List JSValue) (h : steps.all IsStep = true) :
    (steps.map timelineItemOf).all TimelineItem.childrenValid = true := by
  rw [List.all_eq_true] at h ⊢
  intro item hitem
  obtain ⟨step, hstep, rfl⟩ := List.mem_map.mp hitem
  have hs := h step hstep
  simp only [IsStep, Bool.and_eq_true] at hs
  simp only [TimelineItem.childrenValid, timelineItemOf, Bool.and_eq_true]
  exact ⟨validChild_or_of_isText _ _ hs.1.2, validChild_of_isText _ hs.2⟩

theorem plan_childrenValid (plan : List JSValue) (h : plan.all IsPlanItem = true) :
    (plan.map planRowOf).all PlanRow.childrenValid = true := by
  rw [List.all_eq_true] at h ⊢
  intro row hrow
  obtain ⟨item, hitem, rfl⟩ := List.mem_map.mp hrow
  have hs := h item hitem
  simp only [IsPlanItem, Bool.and_eq_true] at hs
  exact validChild_of_isText _ hs.2

theorem buttons_childrenValid (o : JSValue) (h : o.isOptionalStringList = true) :
    ((optionsSlotOf o).responseButtons.all fun b => b.label.validChild) = true := by
  cases o with
  | array items =>
      simp only [JSValue.isOptionalStringList, List.all_eq_true] at h
      simp only [optionsSlotOf, OptionsSlot.responseButtons, List.all_eq_true]
      intro b hb
      obtain ⟨opt, hopt, rfl⟩ := List.mem_map.mp hb
      have hs := h opt hopt
      revert hs
      cases opt <;> intro hs <;> first
        | rfl
        | exact absurd hs (by simp [JSValue.isString])
  | undefined => rfl
  | null => rfl
  | bool b => exact absurd h (by simp [JSValue.isOptionalStringList])
  | number n => exact absurd h (by simp [JSValue.isOptionalStringList])
  | string t => exact absurd h (by simp [JSValue.isOptionalStringList])
  | object props => exact absurd h (by simp [JSValue.isOptionalStringList])

theorem render_of_IsDisplayableSnapshot (c : Console)
    (h : IsDisplayableSnapshot c.scratchpad = true) :
    ∃ steps plan, c.scratchpad.field .steps = .array steps ∧
      c.scratchpad.field .plan = .array plan ∧
      c.render = .ok (.console (steps.map timelineItemOf) (plan.map planRowOf)
          (overlayOf (c.scratchpad.field .ui_action) c.input c.isRecording)) := by
  simp only [IsDisplayableSnapshot, Bool.and_eq_true] at h
  obtain ⟨⟨⟨⟨⟨⟨⟨hsnap, hsteps⟩, hplan⟩, _⟩, _⟩, htitle⟩, hmessage⟩, _⟩ := h
  obtain ⟨steps, plan, hst, hpl, hApp⟩ :=
    App_of_IsSnapshot c.scratchpad c.input c.isRecording hsnap
  refine ⟨steps, plan, hst, hpl, ?_⟩
  have hopts : ((c.scratchpad.field .ui_action).field .options).isOptionalStringList = true := by
    simp only [IsSnapshot, IsUIActionRequest, Bool.and_eq_true] at hsnap
    exact hsnap.2.2
  rw [hst] at hsteps
  rw [hpl] at hplan
  have hvalid : (View.console (steps.map timelineItemOf) (plan.map planRowOf)
      (overlayOf (c.scratchpad.field .ui_action) c.input c.isRecording)).childrenValid
      = true := by
    simp only [View.childrenValid, Bool.and_eq_true]
    refine ⟨⟨timeline_childrenValid steps hsteps, plan_childrenValid plan hplan⟩, ?_⟩
    simp only [Overlay.childrenValid, overlayOf, Bool.or_eq_true, Bool.and_eq_true]
    exact Or.inr ⟨⟨validChild_of_isText _ htitle, validChild_of_isText _ hmessage⟩,
      buttons_childrenValid _ hopts⟩
  rw [render_eq, hApp]
  change mountView _ = _
  unfold mountView
  rw [if_pos hvalid]

theorem modalOpen_of_IsDisplayableSnapshot (c : Console)
    (h : IsDisplayableSnapshot c.scratchpad = true) :
    c.modalOpen = some (HasActiveRequest c.scratchpad) := by
  obtain ⟨steps, plan, _, _, hrender⟩ := render_of_IsDisplayableSnapshot c h
  have htype : ((c.scratchpad.field .ui_action).field .type).isOptionalString = true := by
    simp only [IsDisplayableSnapshot, IsSnapshot, IsUIActionRequest, Bool.and_eq_true] at h
    exact h.1.1.1.1.1.1.1.2.1.2
  rw [← truthy_type_iff_active _ htype]
  unfold Console.modalOpen
  rw [hrender]
  rfl

theorem modalOpen_of_IsSnapshot (c : Console) (h : IsSnapshot c.scratchpad = true) :
    c.modalOpen = some (HasActiveRequest c.scratchpad) ∨ c.modalOpen = none := by
  obtain ⟨steps, plan, _, _, hApp⟩ := App_of_IsSnapshot c.scratchpad c.input c.isRecording h
  have htype : ((c.scratchpad.field .ui_action).field .type).isOptionalString = true := by
    simp only [IsSnapshot, IsUIActionRequest, Bool.and_eq_true] at h
    exact h.2.1.2
  rw [← truthy_type_iff_active _ htype]
  unfold Console.modalOpen
  rw [render_eq, hApp]
  change (match mountView _ with
    | .ok (.console _ _ overlay) => some overlay.modalOpen
    | .ok .loading => some false
    | .error _ => none) = _ ∨ (match mountView _ with
    | .ok (.console _ _ overlay) => some overlay.modalOpen
    | .ok .loading => some false
    | .error _ => none) = _
  unfold mountView
  by_cases hv : (View.console (steps.map timelineItemOf) (plan.map planRowOf)
      (overlayOf (c.scratchpad.field .ui_action) c.input c.isRecording)).childrenValid = true
  · rw [if_pos hv]
    exact Or.inl rfl
  · rw [if_neg hv]
    exact Or.inr rfl

theorem deliver_of_IsDisplayableSnapshot (c : Console) (s : JSValue)
    (h : IsDisplayableSnapshot s = true) :
    deliver (.ok s) (.mounted c) = .mounted { c with scratchpad := s } := by
  obtain ⟨steps, plan, _, _, hrender⟩ :=
    render_of_IsDisplayableSnapshot { c with scratchpad := s } h
  unfold deliver
  simp only [onmessage, hrender]

theorem deliverAll_of_IsDisplayableSnapshot (earlier : List JSValue) (last : JSValue) :
    ∀ c : Console, (∀ s ∈ earlier ++ [last], IsDisplayableSnapshot s = true) →
      deliverAll (earlier ++ [last]) (.mounted c) = .mounted { c with scratchpad := last } := by
  induction earlier with
  | nil =>
      intro c h
      exact deliver_of_IsDisplayableSnapshot c last (h last (by simp))
  | cons x rest ih =>
      intro c h
      show deliverAll (rest ++ [last]) (deliver (.ok x) (.mounted c)) = _
      rw [deliver_of_IsDisplayableSnapshot c x (h x (by simp)),
        ih _ (fun s hs => h s (by simp at hs ⊢; tauto))]

theorem stopRecording_ok_elim (c stopped : Console) (h : stopRecording c = .ok stopped) :
    stopped.recorders.length = c.recorders.length ∧ stopped.mediaRecorder = c.mediaRecorder ∧
      stopped.audioChunks = c.audioChunks ∧ stopped.isRecording = false := by
  unfold stopRecording at h
  cases hm : c.mediaRecorder with
  | none => simp only [hm] at h; cases h
  | some i =>
      simp only [hm] at h
      cases hs : MediaRecorder.stop c.recorders i with
      | error e => rw [hs] at h; cases h
      | ok recorders =>
          rw [hs] at h
          cases h
          exact ⟨MediaRecorder_stop_length _ _ _ hs, rfl, rfl, rfl⟩

/-! ## Inbound messages -/

/-- C1 (as stated, refuted): the payload `{}` parses and lacks `steps`, `plan` and
`ui_action`, so it is malformed; handled while the Scratchpad is `confirmSnapshot`, it
becomes the Scratchpad, which is then no longer what it was. -/
theorem malformed_payload_replaces_scratchpad :
    Malformed (.ok (.object [])) = true ∧
    (onmessage (.ok (.object [])) { Console.init with scratchpad := confirmSnapshot }).scratchpad
      = .object [] ∧
    (onmessage (.ok (.object [])) { Console.init with scratchpad := confirmSnapshot }).scratchpad
      ≠ ({ Console.init with scratchpad := confirmSnapshot } : Console).scratchpad := by
  refine ⟨rfl, rfl, ?_⟩
  intro h
  cases h

/-- C1 (amended): a payload on which `JSON.parse` throws leaves the whole console state,
the Scratchpad included, as it was; a payload that parses becomes the Scratchpad whatever
fields it has. -/
theorem onmessage_parse_failure_keeps_state :
    (∀ (c : Console) (e : JSError), onmessage (.error e) c = c) ∧
    (∀ (c : Console) (v : JSValue), (onmessage (.ok v) c).scratchpad = v) :=
  ⟨fun _ _ => rfl, fun _ _ => rfl⟩

/-- C5: handling a parsed snapshot `s` changes the `scratchpad` state to exactly `s` and
nothing else, whatever the Scratchpad was before (two consoles that differ only in their
Scratchpad agree afterwards), and handling `s` a second time changes nothing: same state,
same render, same `steps` and `plan`. -/
theorem onmessage_replaces_and_is_idempotent (c : Console) (previous s : JSValue) :
    onmessage (.ok s) c = { c with scratchpad := s } ∧
    (onmessage (.ok s) c).scratchpad = s ∧
    onmessage (.ok s) { c with scratchpad := previous } = onmessage (.ok s) c ∧
    onmessage (.ok s) (onmessage (.ok s) c) = onmessage (.ok s) c ∧
    (onmessage (.ok s) (onmessage (.ok s) c)).render = (onmessage (.ok s) c).render ∧
    (onmessage (.ok s) (onmessage (.ok s) c)).scratchpad.field .steps = s.field .steps ∧
    (onmessage (.ok s) (onmessage (.ok s) c)).scratchpad.field .plan = s.field .plan :=
  ⟨rfl, rfl, rfl, rfl, rfl, rfl, rfl⟩

/-! ## The prompt modal -/

/-- C2 (as stated, refuted): the sequence of a snapshot without `ui_action` followed by the
confirmation request. Both are snapshots of the data model, and the last one carries a
non-empty `type`; but the render pass after the first throws, the page is unmounted and its
socket closed, the second snapshot is never applied, and no modal is open at the end.
Delivered alone, the confirmation request opens the modal. -/
theorem snapshot_after_render_throw_is_not_applied :
    IsSnapshotOptionalAction bareSnapshot = true ∧
    IsDisplayableSnapshot confirmSnapshot = true ∧
    HasActiveRequest confirmSnapshot = true ∧
    deliver (.ok bareSnapshot) Page.start = .unmounted ∧
    deliverAll [bareSnapshot, confirmSnapshot] Page.start = .unmounted ∧
    (deliverAll [bareSnapshot, confirmSnapshot] Page.start).modalOpen = none ∧
    (deliverAll [confirmSnapshot] Page.start).modalOpen = some true :=
  ⟨rfl, rfl, rfl, rfl, rfl, rfl, rfl⟩

/-- C2 (amended): for a mounted console in any state and a non-empty sequence
`earlier ++ [last]` of snapshots that display (records with a `ui_action` record, text
fields and unique ids), delivered in order: every snapshot is applied and rendered with the
page staying mounted; at the end the Scratchpad is `last`, and the modal is open when the
`type` of the `ui_action` of `last` is a non-empty string and closed otherwise; the outcome
is the same from any other state and after any other such earlier snapshots. -/
theorem modal_open_iff_last_snapshot_active (c : Console) (earlier : List JSValue)
    (last : JSValue) (hshape : ∀ s ∈ earlier ++ [last], IsDisplayableSnapshot s = true) :
    (∀ (before : List JSValue) (s : JSValue) (rest : List JSValue),
      earlier = before ++ s :: rest →
      deliverAll (before ++ [s]) (.mounted c) = .mounted { c with scratchpad := s }) ∧
    deliverAll (earlier ++ [last]) (.mounted c) = .mounted { c with scratchpad := last } ∧
    (deliverAll (earlier ++ [last]) (.mounted c)).modalOpen = some (HasActiveRequest last) ∧
    ((deliverAll (earlier ++ [last]) (.mounted c)).modalOpen = some true
      ↔ HasActiveRequest last = true) ∧
    (∀ (d : Console) (others : List JSValue),
      (∀ s ∈ others, IsDisplayableSnapshot s = true) →
      (deliverAll (others ++ [last]) (.mounted d)).modalOpen
        = (deliverAll (earlier ++ [last]) (.mounted c)).modalOpen) := by
  have hlast : IsDisplayableSnapshot last = true := hshape last (by simp)
  have hopen : ∀ (d : Console) (xs : List JSValue),
      (∀ s ∈ xs, IsDisplayableSnapshot s = true) →
      (deliverAll (xs ++ [last]) (.mounted d)).modalOpen = some (HasActiveRequest last) := by
    intro d xs hxs
    rw [deliverAll_of_IsDisplayableSnapshot xs last d (by
      intro s hs
      rcases List.mem_append.mp hs with h1 | h1
      · exact hxs s h1
      · rw [List.mem_singleton.mp h1]; exact hlast)]
    exact modalOpen_of_IsDisplayableSnapshot { d with scratchpad := last } hlast
  have hearlier : ∀ s ∈ earlier, IsDisplayableSnapshot s = true :=
    fun s hs => hshape s (List.mem_append_left _ hs)
  refine ⟨?_, deliverAll_of_IsDisplayableSnapshot earlier last c hshape,
    hopen c earlier hearlier, ?_, ?_⟩
  · intro before s rest hsplit
    apply deliverAll_of_IsDisplayableSnapshot before s c
    intro x hx
    apply hearlier
    rw [hsplit]
    rcases List.mem_append.mp hx with h1 | h1
    · exact List.mem_append_left _ h1
    · rw [List.mem_singleton.mp h1]
      exact List.mem_append_right _ (List.mem_cons_self _ _)
  · rw [hopen c earlier hearlier]
    constructor
    · intro h
      exact Option.some.inj h
    · intro h
      rw [h]
  · intro d others hothers
    rw [hopen d others hothers, hopen c earlier hearlier]

/-- C2 (witness): a confirmation request followed by an empty one, from the initial
state. -/
theorem modal_open_iff_last_snapshot_active_witness :
    deliverAll ([confirmSnapshot] ++ [emptySnapshot]) (.mounted Console.init)
      = .mounted { Console.init with scratchpad := emptySnapshot } ∧
    (deliverAll ([confirmSnapshot] ++ [emptySnapshot]) (.mounted Console.init)).modalOpen
      = some (HasActiveRequest emptySnapshot) :=
  let h := modal_open_iff_last_snapshot_active Console.init [confirmSnapshot] emptySnapshot
    (by
      intro s hs
      simp only [List.singleton_append, List.mem_cons, List.mem_singleton, List.not_mem_nil,
        or_false] at hs
      rcases hs with rfl | rfl <;> rfl)
  ⟨h.2.1, h.2.2.1⟩

/-- C3 (as stated, refuted): on a snapshot with empty `steps` and `plan` and no `ui_action`
at all, on one whose `ui_action` is `null`, and on one that carries the empty object under
the key `uiAction` (which `App` does not read), the render throws a TypeError (the read
`uiAction.type` in `ChatOverlay`), so nothing is shown. -/
theorem render_throws_without_ui_action :
    (JSValue.object [("steps", .array []), ("plan", .array [])]).hasField .ui_action = false ∧
    Console.render { Console.init with
      scratchpad := .object [("steps", .array []), ("plan", .array [])] }
      = .error .TypeError ∧
    Console.render { Console.init with
      scratchpad := .object [("steps", .array []), ("plan", .array []), ("ui_action", .null)] }
      = .error .TypeError ∧
    Console.render { Console.init with
      scratchpad :=
        .object [("steps", .array []), ("plan", .array []), ("uiAction", .object [])] }
      = .error .TypeError :=
  ⟨rfl, rfl, rfl, rfl⟩

/-- C3 (amended): for a snapshot that displays (steps and plan are lists of records with
unique ids whose `action`, `result` and `description` are strings, numbers or absent) and
whose `ui_action` is the empty object, delivered to a mounted console in any state: the
render pass succeeds and the page stays mounted, the view has one timeline item per step
and one row per plan item, the modal is closed and has no response buttons. -/
theorem render_empty_ui_action (c : Console) (s : JSValue)
    (hshape : IsDisplayableSnapshot s = true) (hu : s.field .ui_action = .object []) :
    ∃ steps plan overlay,
      s.field .steps = .array steps ∧ s.field .plan = .array plan ∧
      deliver (.ok s) (.mounted c) = .mounted (onmessage (.ok s) c) ∧
      (onmessage (.ok s) c).render
        = .ok (.console (steps.map timelineItemOf) (plan.map planRowOf) overlay) ∧
      overlay.modalOpen = false ∧ overlay.options.responseButtons = [] ∧
      (onmessage (.ok s) c).modalOpen = some false := by
  obtain ⟨steps, plan, hst, hpl, hrender⟩ :=
    render_of_IsDisplayableSnapshot (onmessage (.ok s) c) hshape
  refine ⟨steps, plan, _, hst, hpl, deliver_of_IsDisplayableSnapshot c s hshape, hrender,
    ?_, ?_, ?_⟩
  · show ((s.field .ui_action).field .type).truthy = false
    rw [hu]; rfl
  · show (optionsSlotOf ((s.field .ui_action).field .options)).responseButtons = []
    rw [hu]; rfl
  · unfold Console.modalOpen
    rw [hrender]
    show some ((s.field .ui_action).field .type).truthy = some false
    rw [hu]; rfl

/-- C3 (witness): the snapshot with empty log, empty plan and empty UI action, delivered at
start. -/
theorem render_empty_ui_action_witness :
    ∃ steps plan overlay,
      emptySnapshot.field .steps = .array steps ∧ emptySnapshot.field .plan = .array plan ∧
      deliver (.ok emptySnapshot) (.mounted Console.init)
        = .mounted (onmessage (.ok emptySnapshot) Console.init) ∧
      (onmessage (.ok emptySnapshot) Console.init).render
        = .ok (.console (steps.map timelineItemOf) (plan.map planRowOf) overlay) ∧
      overlay.modalOpen = false ∧ overlay.options.responseButtons = [] ∧
      (onmessage (.ok emptySnapshot) Console.init).modalOpen = some false :=
  render_empty_ui_action Console.init emptySnapshot rfl rfl

/-! ## Submitting a response -/

/-- C4: in a state whose prompt modal is open, submitting a text, by typing it and pressing
Send or by clicking the response button of that option, leaves the Scratchpad as it was and
the modal open, and so does any sequence of submissions; after the first later snapshot
without an active request the modal is no longer open, and when that snapshot displays the
page stays mounted with the modal closed. -/
theorem submit_keeps_scratchpad_and_modal (c : Console) (t : String)
    (hopen : c.modalOpen = some true) :
    (handleSend (onChange t c)).scratchpad = c.scratchpad ∧
    (handleSend (onChange t c)).modalOpen = some true ∧
    ((optionButtonOf (.string t)).click c).scratchpad = c.scratchpad ∧
    ((optionButtonOf (.string t)).click c).modalOpen = some true ∧
    (∀ subs : List Submission,
      (submitAll subs c).scratchpad = c.scratchpad ∧
      (submitAll subs c).modalOpen = some true) ∧
    (∀ (subs : List Submission) (s : JSValue), IsSnapshot s = true →
      HasActiveRequest s = false →
      (onmessage (.ok s) (submitAll subs c)).modalOpen ≠ some true) ∧
    (∀ (subs : List Submission) (s : JSValue), IsDisplayableSnapshot s = true →
      HasActiveRequest s = false →
      (onmessage (.ok s) (submitAll subs c)).modalOpen = some false ∧
      deliver (.ok s) (.mounted (submitAll subs c))
        = .mounted (onmessage (.ok s) (submitAll subs c))) := by
  refine ⟨rfl, ?_, rfl, ?_, ?_, ?_, ?_⟩
  · rw [modalOpen_eq_of_scratchpad (handleSend (onChange t c)) c rfl, hopen]
  · rw [modalOpen_eq_of_scratchpad ((optionButtonOf (.string t)).click c) c rfl, hopen]
  · intro subs
    refine ⟨submitAll_scratchpad subs c, ?_⟩
    rw [modalOpen_eq_of_scratchpad _ c (submitAll_scratchpad subs c), hopen]
  · intro subs s hs hidle
    rcases modalOpen_of_IsSnapshot (onmessage (.ok s) (submitAll subs c)) hs with h | h
    · rw [h]
      show some (HasActiveRequest s) ≠ some true
      rw [hidle]
      exact fun hcontra => Bool.noConfusion (Option.some.inj hcontra)
    · rw [h]
      exact fun hcontra => Option.noConfusion hcontra
  · intro subs s hs hidle
    refine ⟨?_, deliver_of_IsDisplayableSnapshot _ s hs⟩
    rw [modalOpen_of_IsDisplayableSnapshot (onmessage (.ok s) (submitAll subs c)) hs]
    show some (HasActiveRequest s) = some false
    rw [hidle]

/-- C4 (witness): the confirmation request is on screen and `No` is submitted. -/
theorem submit_keeps_scratchpad_and_modal_witness :
    Console.modalOpen { Console.init with scratchpad := confirmSnapshot } = some true ∧
    (handleSend (onChange "No" { Console.init with scratchpad := confirmSnapshot })).modalOpen
      = some true :=
  ⟨rfl, (submit_keeps_scratchpad_and_modal
    { Console.init with scratchpad := confirmSnapshot } "No" rfl).2.1⟩

/-- C9: pressing Send with the text `t` in the input field issues exactly one request, a
POST to the input endpoint whose body carries `t` as `response`, and empties the input
field; when the request later settles, fulfilled or rejected, the field is still empty and
no further request has been issued. -/
theorem handleSend_posts_once_and_clears (c : Console) (t : String) :
    (handleSend (onChange t c)).requests
      = c.requests ++ [.postInput "http://localhost:8000/input" (.string t)] ∧
    (handleSend (onChange t c)).input = "" ∧
    ∀ fulfilled : Bool,
      (postSettled fulfilled (handleSend (onChange t c))).input = "" ∧
      (postSettled fulfilled (handleSend (onChange t c))).requests
        = c.requests ++ [.postInput "http://localhost:8000/input" (.string t)] :=
  ⟨rfl, rfl, fun _ => ⟨rfl, rfl⟩⟩

/-- C10: for a UI action record with a truthy `type`, the overlay renders with the modal
open; when `options` is the list of strings `L`, the response buttons are exactly one per
element of `L` in the order of `L`, the i-th labelled `L[i]`, and clicking the i-th issues
exactly one request, whose `response` is `L[i]`; when `options` is absent there is no
response button. -/
theorem option_buttons_match_options (u : JSValue) (input : String) (isRecording : Bool)
    (hu : u.isRecord = true) (hactive : (u.field .type).truthy = true) :
    (∀ L : List String, u.field .options = .array (L.map .string) →
      ∃ overlay, ChatOverlay u input isRecording = .ok overlay ∧ overlay.modalOpen = true ∧
        overlay.options.responseButtons = L.map (fun t => optionButtonOf (.string t)) ∧
        overlay.options.responseButtons.length = L.length ∧
        ∀ (i : Nat) (h : i < L.length) (c : Console),
          ∃ b, overlay.options.responseButtons.get? i = some b ∧ b.label = .string L[i] ∧
            b.click c = handleUserResponse (.string L[i]) c ∧
            (b.click c).requests
              = c.requests ++ [.postInput "http://localhost:8000/input" (.string L[i])]) ∧
    (u.hasField .options = false →
      ∃ overlay, ChatOverlay u input isRecording = .ok overlay ∧ overlay.modalOpen = true ∧
        overlay.options.responseButtons = []) := by
  constructor
  · intro L hopts
    refine ⟨_, ChatOverlay_of_record u input isRecording hu (Or.inr ⟨_, hopts⟩), hactive, ?_⟩
    have hb : (overlayOf u input isRecording).options.responseButtons
        = L.map (fun t => optionButtonOf (.string t)) := by
      simp only [overlayOf, hopts, optionsSlotOf, OptionsSlot.responseButtons, List.map_map]
      rfl
    refine ⟨hb, by rw [hb, List.length_map], ?_⟩
    intro i h c
    refine ⟨optionButtonOf (.string L[i]), ?_, rfl, rfl, rfl⟩
    rw [hb, List.get?_eq_getElem?, List.getElem?_map, List.getElem?_eq_getElem h]
    rfl
  · intro habsent
    have hundef : u.field .options = .undefined := by
      revert hu habsent
      cases u <;> intro hu habsent <;> try rfl
      rename_i props
      simp only [JSValue.hasField] at habsent
      simp only [JSValue.field]
      cases hl : List.lookup Field.options.name props with
      | none => rfl
      | some v => rw [hl] at habsent; cases habsent
    refine ⟨_, ChatOverlay_of_record u input isRecording hu (Or.inl (by rw [hundef]; rfl)),
      hactive, ?_⟩
    simp only [overlayOf, hundef, optionsSlotOf, OptionsSlot.responseButtons]

/-- C10 (witness): the confirmation request with the options `Yes` and `No`. -/
theorem option_buttons_match_options_witness :
    ∃ overlay, ChatOverlay (confirmSnapshot.field .ui_action) "" false = .ok overlay ∧
      overlay.modalOpen = true ∧
      overlay.options.responseButtons
        = ["Yes", "No"].map (fun t => optionButtonOf (.string t)) :=
  let ⟨overlay, h1, h2, h3, _⟩ :=
    (option_buttons_match_options (confirmSnapshot.field .ui_action) "" false rfl rfl).1
      ["Yes", "No"] rfl
  ⟨overlay, h1, h2, h3⟩

/-! ## Audio capture -/

/-- C6 (as stated, refuted): from the initial state a first `startRecording` on stream 0
makes recorder 0 the active one and sets the flag; a second `startRecording`, granted
stream 1 while that recording is active, creates and starts recorder 1 and makes it the
recorder held by the ref. -/
theorem startRecording_while_recording_replaces_recorder :
    (startRecording (.ok 0) Console.init).isRecording = true ∧
    (startRecording (.ok 0) Console.init).mediaRecorder = some 0 ∧
    (startRecording (.ok 0) Console.init).recorders = [{ stream := 0, state := .recording }] ∧
    (startRecording (.ok 1) (startRecording (.ok 0) Console.init)).mediaRecorder = some 1 ∧
    (startRecording (.ok 1) (startRecording (.ok 0) Console.init)).recorders
      = [{ stream := 0, state := .recording }, { stream := 1, state := .recording }] := by
  decide

/-- C6 (amended): while a recording is active the microphone control is bound to
`stopRecording`, and a click on it runs `stopRecording` and not `startRecording`: no
recorder is created, the ref keeps the recorder it held, and the chunk buffer is as it
was. -/
theorem micClick_while_recording (c : Console) (media : Except JSError Nat)
    (hrec : c.isRecording = true) :
    (∀ (u : JSValue) (input : String) (overlay : Overlay),
      ChatOverlay u input c.isRecording = .ok overlay → overlay.fabOnClick = .stopRecording) ∧
    (micClick media c = match stopRecording c with
      | .ok stopped => stopped
      | .error _ => c) ∧
    (micClick media c).recorders.length = c.recorders.length ∧
    (micClick media c).mediaRecorder = c.mediaRecorder ∧
    (micClick media c).audioChunks = c.audioChunks := by
  have hclick : micClick media c = match stopRecording c with
      | .ok stopped => stopped
      | .error _ => c := by
    unfold micClick
    rw [if_pos hrec]
  refine ⟨?_, hclick, ?_⟩
  · intro u input overlay h
    obtain ⟨slot, _, rfl⟩ := ChatOverlay_ok_elim u input c.isRecording overlay h
    simp only [overlayOf, hrec, if_true]
  · rw [hclick]
    cases hs : stopRecording c with
    | error e => exact ⟨rfl, rfl, rfl⟩
    | ok stopped =>
        obtain ⟨h1, h2, h3, _⟩ := stopRecording_ok_elim c stopped hs
        exact ⟨h1, h2, h3⟩

/-- C6 (witness): a click while recorder 0 is recording. -/
theorem micClick_while_recording_witness :
    (startRecording (.ok 0) Console.init).isRecording = true ∧
    (micClick (.ok 1) (startRecording (.ok 0) Console.init)).mediaRecorder
      = (startRecording (.ok 0) Console.init).mediaRecorder :=
  ⟨rfl, (micClick_while_recording (startRecording (.ok 0) Console.init) (.ok 1) rfl).2.2.2.1⟩

/-- C7: from a state with an empty chunk buffer (an idle one in particular), a granted `startRecording`, the chunks
`before` delivered in order, `stopRecording`, the chunks `after` the recorder still
delivers before its `stop` event, and `onstop` all run without an exception; exactly one
request is added, the upload of one blob of type `audio/webm` whose bytes are the bytes of
the chunks in arrival order; afterwards the chunk buffer is empty, the recording flag is
false and the recorder of the session is inactive. With `after` empty the payload is
exactly the chunks that arrived before the stop call. -/
theorem recording_session_sends_one_payload (c : Console) (stream : Nat)
    (before after : List Blob) (hempty : c.audioChunks = []) :
    ∃ done, recordingSession stream before after c = .ok done ∧
      done.requests = c.requests ++
        [.postAudio "http://localhost:8000/audio" "file"
          (Blob.ofParts (before ++ after) "audio/webm") "multipart/form-data"] ∧
      (Blob.ofParts (before ++ after) "audio/webm").bytes
        = ((before ++ after).map fun chunk => chunk.bytes).flatten ∧
      (Blob.ofParts (before ++ after) "audio/webm").type = "audio/webm" ∧
      done.audioChunks = [] ∧ done.isRecording = false ∧
      done.mediaRecorder = some c.recorders.length ∧
      done.recorders = c.recorders ++ [{ stream := stream, state := .inactive }] := by
  have hget : (c.recorders ++ [({ stream := stream, state := .recording } : MediaRecorder)]).get?
      c.recorders.length = some { stream := stream, state := .recording } := by
    simp
  have hstop : MediaRecorder.stop
      (c.recorders ++ [({ stream := stream, state := .recording } : MediaRecorder)])
      c.recorders.length
      = .ok (c.recorders ++ [{ stream := stream, state := .inactive }]) := by
    unfold MediaRecorder.stop
    rw [hget]
    simp
  unfold recordingSession
  simp only [deliverChunks_audioChunks, startRecording, stopRecording, hstop, hempty,
    List.nil_append]
  exact ⟨_, rfl, rfl, rfl, rfl, rfl, rfl, rfl, rfl⟩

/-- C7 (witness): two chunks arrive before the stop call. -/
theorem recording_session_sends_one_payload_witness :
    ∃ done, recordingSession 0
        [{ bytes := [1, 2], type := "audio/webm" }, { bytes := [3], type := "audio/webm" }] []
        Console.init = .ok done ∧
      done.requests =
        [.postAudio "http://localhost:8000/audio" "file"
          { bytes := [1, 2, 3], type := "audio/webm" } "multipart/form-data"] ∧
      done.audioChunks = [] ∧ done.isRecording = false :=
  let ⟨done, h1, h2, _, _, h5, h6, _⟩ :=
    recording_session_sends_one_payload Console.init 0
      [{ bytes := [1, 2], type := "audio/webm" }, { bytes := [3], type := "audio/webm" }] []
      rfl
  ⟨done, h1, h2, h5, h6⟩

/-- C8: when `getUserMedia` rejects during a `startRecording` called while idle, the console
state is exactly what it was: the recording flag is still false, no recorder has been
created or started, the ref and the chunk buffer are unchanged; the same holds for the
click on the microphone control that made the call. -/
theorem startRecording_rejected_stays_idle (c : Console) (e : JSError)
    (hidle : c.isRecording = false) :
    startRecording (.error e) c = c ∧
    (startRecording (.error e) c).isRecording = false ∧
    (startRecording (.error e) c).recorders = c.recorders ∧
    (startRecording (.error e) c).mediaRecorder = c.mediaRecorder ∧
    (startRecording (.error e) c).audioChunks = c.audioChunks ∧
    micClick (.error e) c = c := by
  refine ⟨rfl, hidle, rfl, rfl, rfl, ?_⟩
  unfold micClick
  rw [if_neg (by simp [hidle])]
  rfl

/-- C8 (witness): permission denied in the initial state. -/
theorem startRecording_rejected_stays_idle_witness :
    Console.init.isRecording = false ∧
    (startRecording (.error .NotAllowedError) Console.init).isRecording = false ∧
    (startRecording (.error .NotAllowedError) Console.init).recorders = [] :=
  ⟨rfl, (startRecording_rejected_stays_idle Console.init .NotAllowedError rfl).2.1,
    (startRecording_rejected_stays_idle Console.init .NotAllowedError rfl).2.2.1⟩

end Aethel
